import Mathlib

/-!
Verification of the Narutalk workflow-orchestration core.

This file shallowly embeds the session-state model and merge rules of
`src/backend/agents/state.py`, the routing functions of
`src/backend/agents/graph.py`, and the plan-execution helpers of
`src/backend/agents/supervisor/agent_executor.py`, and proves (or refutes)
the specification's claims about them.

Python dictionaries are embedded as insertion-ordered association lists with
unique keys; Python `None`-able reads (`dict.get`) become `Option`; Python
ints become `Int`; the float scores that are only ever compared (never
arithmetically combined) become `ℚ`.
-/

set_option linter.unusedVariables false

namespace Narutalk

/-- A Python value as it appears in the dictionaries merged by `merge_dicts`
(`src/backend/agents/state.py`).  The numeric case covers the
`isinstance(v, (int, float))` branch at the `Dict[str, int]` instantiation
(`api_calls_made`); every non-numeric payload is collapsed to a string. -/
inductive Value where
  | num (n : Int)
  | str (s : String)
  deriving DecidableEq

/-- A Python dict, embedded as an insertion-ordered association list. -/
abbrev Dict := List (String × Value)

/-- `d[k]` / `k in d` on a Python dict: the first binding for `k`. -/
def dlookup : List (String × α) → String → Option α
  | [], _ => none
  | (k', v) :: rest, k => if k' = k then some v else dlookup rest k

/-- `d[k] = v` on a Python dict: replace the first binding for `k` in place,
otherwise append a new binding at the end (insertion order preserved). -/
def dset : List (String × α) → String → α → List (String × α)
  | [], k, v => [(k, v)]
  | (k', v') :: rest, k, v =>
      if k' = k then (k, v) :: rest else (k', v') :: dset rest k v

/-- The loop body of `merge_dicts`: `if key in result and
isinstance(result[key], (int, float)) and isinstance(value, (int, float)):
result[key] += value else: result[key] = value`. -/
def merge_step (result : Dict) (kv : String × Value) : Dict :=
  match dlookup result kv.1, kv.2 with
  | some (Value.num a), Value.num b => dset result kv.1 (Value.num (a + b))
  | _, _ => dset result kv.1 kv.2

/-- `merge_dicts` from `src/backend/agents/state.py` (lines 13-21): start from
a copy of `current`; for each binding of `update`, add when both the existing
and the new value are numeric, otherwise overwrite. -/
def merge_dicts (current update : Dict) : Dict :=
  update.foldl merge_step current

/-- Python's slice `l[-limit:]`: with `limit = 0` the slice `[-0:]` is the
whole list, otherwise the last `limit` elements. -/
def pyLastSlice (limit : Nat) (l : List α) : List α :=
  if limit = 0 then l else l.drop (l.length - limit)

/-- The reducer produced by `append_with_limit(limit)` in
`src/backend/agents/state.py` (lines 24-33): concatenate, then truncate to the
last `limit` elements when the combined length exceeds `limit`.  (The
`isinstance` coercions are identities here because the embedded channels are
typed as lists.) -/
def append_with_limit (limit : Nat) (current update : List α) : List α :=
  let combined := current ++ update
  if combined.length > limit then pyLastSlice limit combined else combined

/-- `merge_agent_states` from `src/backend/agents/state.py` (lines 36-40):
`result = current.copy(); result.update(update)`. -/
def merge_agent_states (current update : List (String × α)) : List (String × α) :=
  update.foldl (fun result kv => dset result kv.1 kv.2) current

/-- An opaque record payload (a conversation entry, execution step, audit
fact, error, warning or stored agent state): its content never influences the
merge rules, which treat it atomically. -/
abbrev Entry := Dict

/-- The fields of `QueryAnalyzerState` read by the orchestration functions
under verification (`determine_next_phase` reads only
`clarification_needed`). -/
structure QueryAnalyzerState where
  clarification_needed : Bool
  deriving DecidableEq

/-- The fields of `PlanningState` read by the orchestration functions under
verification (`determine_next_phase` reads only `execution_plan`). -/
structure PlanningState where
  execution_plan : List Entry
  deriving DecidableEq

/-- A pending-task record as read by `WorkflowGraph._route_to_workers`
(`next_task.get("agent")`). -/
structure PendingTask where
  agent : Option String
  deriving DecidableEq

/-- The fields of `ExecutionManagerState` read by the orchestration functions
under verification: `need_replan`, `execution_status` and `pending_tasks`. -/
structure ExecutionManagerState where
  need_replan : Bool
  execution_status : Option String
  pending_tasks : List PendingTask
  deriving DecidableEq

/-- The record read by `WorkflowGraph._check_iteration` under the
`iteration_state` key; both fields are read with `dict.get` defaults
(`need_retry` defaults to `False`, `quality_score` to `1.0`). -/
structure IterationState where
  need_retry : Option Bool
  quality_score : Option ℚ
  deriving DecidableEq

/-- `GlobalSessionState` from `src/backend/agents/state.py` (lines 169-212),
as the runtime dict threaded through the graph.  The `messages` channel is
omitted: its reducer (`add_messages`) lives in the LangChain library, outside
this repository, and no claim ranges over it.  The trailing two fields are
not declared in the TypedDict but are read with `state.get(...)` defaults by
`WorkflowGraph._check_iteration`, so the runtime dict may or may not carry
them. -/
structure GState where
  session_id : String
  user_id : String
  company_id : String
  conversation_history : List Entry
  current_phase : String
  current_agent : Option String
  workflow_status : Dict
  iteration_count : Int
  execution_steps : List Entry
  progress_percentage : ℚ
  total_tokens_used : Int
  api_calls_made : Dict
  db_queries_executed : Int
  query_analyzer_state : Option QueryAnalyzerState
  planning_state : Option PlanningState
  execution_manager_state : Option ExecutionManagerState
  agent_states : List (String × Entry)
  final_response : Option String
  response_metadata : Dict
  errors : List Entry
  warnings : List Entry
  audit_trail : List Entry
  iteration_state : Option IterationState
  max_iterations : Option Int
  deriving DecidableEq

/-- A node's partial update: `none` means the key is absent from the returned
dict, so the corresponding channel is left untouched by the merge step. -/
structure GUpdate where
  session_id : Option String := none
  user_id : Option String := none
  company_id : Option String := none
  conversation_history : Option (List Entry) := none
  current_phase : Option String := none
  current_agent : Option (Option String) := none
  workflow_status : Option Dict := none
  iteration_count : Option Int := none
  execution_steps : Option (List Entry) := none
  progress_percentage : Option ℚ := none
  total_tokens_used : Option Int := none
  api_calls_made : Option Dict := none
  db_queries_executed : Option Int := none
  query_analyzer_state : Option (Option QueryAnalyzerState) := none
  planning_state : Option (Option PlanningState) := none
  execution_manager_state : Option (Option ExecutionManagerState) := none
  agent_states : Option (List (String × Entry)) := none
  final_response : Option (Option String) := none
  response_metadata : Option Dict := none
  errors : Option (List Entry) := none
  warnings : Option (List Entry) := none
  audit_trail : Option (List Entry) := none
  deriving DecidableEq

/-- One LangGraph merge step: each channel of `GlobalSessionState` combines
the node's partial update with the current value using the reducer declared
for it in `src/backend/agents/state.py` — `operator.add` for the Sum fields,
`append_with_limit(50/100/200)` for the bounded logs, `merge_dicts` for
`api_calls_made`, `merge_agent_states` for `agent_states`, list concatenation
for `errors`/`warnings`, and last-value replacement for everything else.
Channels whose key is absent from the update are untouched. -/
def apply_update (s : GState) (u : GUpdate) : GState where
  session_id := u.session_id.getD s.session_id
  user_id := u.user_id.getD s.user_id
  company_id := u.company_id.getD s.company_id
  conversation_history :=
    match u.conversation_history with
    | none => s.conversation_history
    | some l => append_with_limit 50 s.conversation_history l
  current_phase := u.current_phase.getD s.current_phase
  current_agent := u.current_agent.getD s.current_agent
  workflow_status := u.workflow_status.getD s.workflow_status
  iteration_count :=
    match u.iteration_count with
    | none => s.iteration_count
    | some n => s.iteration_count + n
  execution_steps :=
    match u.execution_steps with
    | none => s.execution_steps
    | some l => append_with_limit 100 s.execution_steps l
  progress_percentage := u.progress_percentage.getD s.progress_percentage
  total_tokens_used :=
    match u.total_tokens_used with
    | none => s.total_tokens_used
    | some n => s.total_tokens_used + n
  api_calls_made :=
    match u.api_calls_made with
    | none => s.api_calls_made
    | some d => merge_dicts s.api_calls_made d
  db_queries_executed :=
    match u.db_queries_executed with
    | none => s.db_queries_executed
    | some n => s.db_queries_executed + n
  query_analyzer_state := u.query_analyzer_state.getD s.query_analyzer_state
  planning_state := u.planning_state.getD s.planning_state
  execution_manager_state := u.execution_manager_state.getD s.execution_manager_state
  agent_states :=
    match u.agent_states with
    | none => s.agent_states
    | some d => merge_agent_states s.agent_states d
  final_response := u.final_response.getD s.final_response
  response_metadata := u.response_metadata.getD s.response_metadata
  errors :=
    match u.errors with
    | none => s.errors
    | some l => s.errors ++ l
  warnings :=
    match u.warnings with
    | none => s.warnings
    | some l => s.warnings ++ l
  audit_trail :=
    match u.audit_trail with
    | none => s.audit_trail
    | some l => append_with_limit 200 s.audit_trail l
  iteration_state := s.iteration_state
  max_iterations := s.max_iterations

/-- `initialize_global_state` from `src/backend/agents/state.py`
(lines 215-241). -/
def initialize_global_state (session_id user_id company_id : String) : GState where
  session_id := session_id
  user_id := user_id
  company_id := company_id
  conversation_history := []
  current_phase := "analyzing"
  current_agent := none
  workflow_status := []
  iteration_count := 0
  execution_steps := []
  progress_percentage := 0
  total_tokens_used := 0
  api_calls_made := []
  db_queries_executed := 0
  query_analyzer_state := none
  planning_state := none
  execution_manager_state := none
  agent_states := []
  final_response := none
  response_metadata := []
  errors := []
  warnings := []
  audit_trail := []
  iteration_state := none
  max_iterations := none

/-- `determine_next_phase` from `src/backend/agents/state.py`
(lines 244-266). -/
def determine_next_phase (s : GState) : String :=
  if s.current_phase = "analyzing" then
    match s.query_analyzer_state with
    | some qa => if qa.clarification_needed then "clarifying" else "planning"
    | none => "planning"
  else if s.current_phase = "planning" then
    match s.planning_state with
    | some p => if p.execution_plan = [] then "analyzing" else "executing"
    | none => "executing"
  else if s.current_phase = "executing" then
    match s.execution_manager_state with
    | some em =>
        if em.need_replan then "planning"
        else if em.execution_status = some "completed" then "completed"
        else "executing"
    | none => "executing"
  else "completed"

/-- The nodes added to the graph in `WorkflowGraph.build_graph`
(`src/backend/agents/graph.py`, lines 40-45).  The five worker nodes are
commented out in the source and therefore absent. -/
def graph_nodes : List String :=
  ["intent_analysis", "planning", "agent_selection", "execution", "evaluation", "iteration"]

/-- The conditional-edge mapping attached to the `execution` node in
`WorkflowGraph.build_graph` (lines 61-73): the five worker entries are
commented out, leaving only `evaluation` and `error` (the latter mapped to
the `END` sentinel). -/
def execution_path_map : List (String × String) :=
  [("evaluation", "evaluation"), ("error", "__end__")]

/-- The labels declared as keys of `execution_path_map`. -/
def execution_edge_labels : List String := execution_path_map.map Prod.fst

/-- The conditional-edge mapping attached to the `iteration` node in
`WorkflowGraph.build_graph` (lines 83-90). -/
def iteration_path_map : List (String × String) :=
  [("retry", "planning"), ("complete", "__end__")]

/-- The labels declared as keys of `iteration_path_map`. -/
def iteration_edge_labels : List String := iteration_path_map.map Prod.fst

/-- The `agent_mapping` dict inside `WorkflowGraph._route_to_workers`
(lines 159-165). -/
def agent_node_map : List (String × String) :=
  [("DataAnalysisAgent", "data_analysis"),
   ("InformationRetrievalAgent", "info_retrieval"),
   ("DocumentGenerationAgent", "doc_generation"),
   ("ComplianceValidationAgent", "compliance"),
   ("StorageDecisionAgent", "storage")]

/-- The `if pending_tasks:` block of `WorkflowGraph._route_to_workers`
(lines 151-170): the first pending task's agent, mapped through
`agent_node_map`; `none` when there is no pending task, the task has no
agent, or the agent name is unmapped — in all of which the Python code falls
through to the completion check. -/
def route_pending : List PendingTask → Option String
  | [] => none
  | t :: _ =>
      match t.agent with
      | none => none
      | some a => dlookup agent_node_map a

/-- `WorkflowGraph._route_to_workers` from `src/backend/agents/graph.py`
(lines 143-179).  A missing or empty `execution_manager_state` is falsy in
Python and yields `"error"` (an all-defaults record takes the same path
through the remaining checks and also yields `"error"`). -/
def _route_to_workers (s : GState) : String :=
  match s.execution_manager_state with
  | none => "error"
  | some es =>
      match route_pending es.pending_tasks with
      | some node_name => node_name
      | none =>
          if es.execution_status = some "completed" then "evaluation" else "error"

/-- `WorkflowGraph._check_iteration` from `src/backend/agents/graph.py`
(lines 181-212).  `iteration_state` and `max_iterations` are read with
`state.get` (they are not declared channels); the quality threshold `0.8`
and the defaults `False` / `1.0` are literals in the source. -/
def _check_iteration (s : GState) : String :=
  match s.iteration_state with
  | none => "complete"
  | some it =>
      if s.max_iterations.getD 3 ≤ s.iteration_count then "complete"
      else if it.need_retry.getD false then "retry"
      else if it.quality_score.getD 1 < (4 : ℚ) / 5 then "retry"
      else "complete"

/-- A plan step as read by `AgentExecutor`
(`src/backend/agents/supervisor/agent_executor.py`): `step["agent_name"]`,
the truthiness of `step.get("parallel")`, and `step.get("dependencies", [])`. -/
structure PlanStep where
  agent_name : String
  parallel : Bool
  dependencies : List String
  deriving DecidableEq

/-- `AgentExecutor._get_next_step` (lines 72-84): the first plan step whose
agent has not executed and whose dependencies have all executed. -/
def _get_next_step (plan : List PlanStep) (executed : List String) : Option PlanStep :=
  plan.find? (fun step =>
    !executed.contains step.agent_name && step.dependencies.all (executed.contains ·))

/-- The selection loop of `AgentExecutor._get_parallel_agents` (lines 86-101),
mirroring the Python `for step in plan: ... parallel.append(step)` so that
selected steps keep their plan order. -/
def _get_parallel_agents_loop (current : PlanStep) (executed : List String) :
    List PlanStep → List PlanStep
  | [] => []
  | step :: rest =>
      if step ≠ current ∧ step.parallel = true ∧ step.agent_name ∉ executed then
        step :: _get_parallel_agents_loop current executed rest
      else
        _get_parallel_agents_loop current executed rest

/-- `AgentExecutor._get_parallel_agents` (lines 86-101): every plan step other
than the current one that is marked parallel and not yet executed. -/
def _get_parallel_agents (plan : List PlanStep) (current : PlanStep)
    (executed : List String) : List PlanStep :=
  _get_parallel_agents_loop current executed plan

/-- The node names targeted by the `Send` objects built in
`AgentExecutor._create_sends` (lines 103-127): one per parallel agent, in
order, or a single send for the current agent when no parallel agents were
selected. -/
def _create_sends_names (agent_name : String) (parallel_agents : List PlanStep) : List String :=
  match parallel_agents with
  | [] => [agent_name ++ "_agent"]
  | _ => parallel_agents.map (fun a => a.agent_name ++ "_agent")

/-- The unsatisfied-dependency set of a plan step: the declared dependencies
not yet recorded in `agent_sequence`. -/
def unsatisfied_deps (step : PlanStep) (executed : List String) : List String :=
  step.dependencies.filter (fun d => !executed.contains d)

/-- Modelled from the spec: `iteration_controller.py` (imported by
`src/backend/agents/graph.py` via the supervisor package but absent from
`src`) is the loop-back node; per the spec the iteration counter is
"incremented exactly once per full analyze→plan→execute→evaluate cycle",
"only at the loop-back edge", so the controller's partial update carries an
`iteration_count` contribution of exactly `1` and touches no other
accumulating channel. -/
def iteration_controller_update : GUpdate :=
  { iteration_count := some 1 }

/-- One pass around the evaluate→iterate loop: the iteration router decides
with the current state; on `"retry"` the loop-back edge fires and the
modelled controller increment is merged, otherwise the state is final. -/
def loop_step (s : GState) : GState :=
  if _check_iteration s = "retry" then apply_update s iteration_controller_update else s

/-- `n` passes around the evaluate→iterate loop. -/
def loop_iter : Nat → GState → GState
  | 0, s => s
  | n + 1, s => loop_iter n (loop_step s)

/-- A checkpoint record, keyed by a per-session id. -/
structure Checkpoint where
  id : Nat
  blob : GState
  deriving DecidableEq

/-- Modelled from the spec: the checkpoint store itself (LangGraph's
`AsyncSqliteSaver`; `src/services/chatbot/persistence/checkpointer.py` only
wraps it) is absent from `src`.  Per the spec, `save` "writes a new
checkpoint; must not overwrite prior checkpoints (append-only history)" with
a "monotonic id, not arbitrary overwrite": the next id is the per-session
save counter. -/
def save_checkpoint (store : List Checkpoint) (blob : GState) : List Checkpoint :=
  store ++ [⟨store.length, blob⟩]

/-- The store after saving a sequence of snapshots for one session, in time
order, starting from an empty history. -/
def build_store (blobs : List GState) : List Checkpoint :=
  blobs.foldl save_checkpoint []

/-- Modelled from the spec: `list(sessionId, limit)` "returns checkpoint
metadata in reverse chronological order" — here just the ids, newest
first. -/
def list_checkpoints (store : List Checkpoint) : List Nat :=
  (store.map Checkpoint.id).reverse

/-- Modelled from the spec: `loadLatest` / resuming with
`checkpoint_id = None` (`CheckpointerManager.get_config`) "returns the most
recent checkpoint or none". -/
def load_latest (store : List Checkpoint) : Option Checkpoint :=
  store.getLast?

/-- The node names `_route_to_workers` can map a pending task to, read off
`agent_node_map`. -/
def worker_labels : List String := agent_node_map.map Prod.snd

/-- A fresh session state, as produced by `initialize_global_state`. -/
def sample_state : GState := initialize_global_state "session-1" "user-1" "org-1"

/-- An iteration record with `need_retry` absent and a quality score of 1/2,
strictly below the 0.8 threshold. -/
def sample_iteration_state : IterationState :=
  { need_retry := none, quality_score := some (1 / 2) }

/-- A fresh state carrying `sample_iteration_state` under the
`iteration_state` key. -/
def sample_quality_state : GState :=
  { sample_state with iteration_state := some sample_iteration_state }

/-- A state whose execution manager has a pending task for
`DataAnalysisAgent`. -/
def pending_data_analysis_state : GState :=
  { sample_state with
    execution_manager_state := some
      { need_replan := false
        execution_status := some "running"
        pending_tasks := [{ agent := some "DataAnalysisAgent" }] } }

/-- A state in phase `analyzing` whose query analysis requested
clarification. -/
def clarify_state : GState :=
  { sample_state with
    query_analyzer_state := some { clarification_needed := true } }

theorem mem_snd_of_dlookup {α : Type} {d : List (String × α)} {k : String} {v : α}
    (h : dlookup d k = some v) : v ∈ d.map Prod.snd := by
  induction d with
  | nil => simp [dlookup] at h
  | cons kv rest ih =>
      obtain ⟨k', v'⟩ := kv
      rw [dlookup] at h
      by_cases hk : k' = k
      · simp [hk] at h
        simp [h]
      · rw [if_neg hk] at h
        exact List.mem_cons_of_mem _ (ih h)

/-- C9: the conditional-edge routers `_route_to_workers` and
`_check_iteration` are pure functions of the session state: two runs on
identical states return identical labels. -/
theorem C9_routing_determinism (s t : GState) (h : s = t) :
    _route_to_workers s = _route_to_workers t ∧ _check_iteration s = _check_iteration t := by
  subst h
  exact ⟨rfl, rfl⟩

theorem C9_witness :
    _route_to_workers sample_state = _route_to_workers sample_state ∧
    _check_iteration sample_state = _check_iteration sample_state :=
  C9_routing_determinism sample_state sample_state rfl

/-- C10: when the iteration cap is not reached and `iteration_state` is
present with `need_retry` false, `_check_iteration` returns `"retry"` exactly
when the quality score (defaulting to `1.0`) is strictly below the fixed
threshold `0.8`, and `"complete"` otherwise; with `iteration_state` absent it
returns `"complete"`. -/
theorem C10_hidden_quality_retry (s : GState) :
    (∀ it, s.iteration_state = some it →
        s.iteration_count < s.max_iterations.getD 3 →
        it.need_retry.getD false = false →
        _check_iteration s =
          (if it.quality_score.getD 1 < (4 : ℚ) / 5 then "retry" else "complete")) ∧
    (s.iteration_state = none → _check_iteration s = "complete") := by
  constructor
  · intro it hit hlt hnr
    unfold _check_iteration
    rw [hit]
    dsimp only
    rw [if_neg (not_le.mpr hlt), hnr, if_neg (by decide)]
  · intro h
    unfold _check_iteration
    rw [h]

theorem C10_witness :
    _check_iteration sample_quality_state = "retry" := by
  have h := (C10_hidden_quality_retry sample_quality_state).1 sample_iteration_state rfl
    (by decide) rfl
  rw [h]
  norm_num [sample_iteration_state]

/-- C2 counterexample: with a pending `DataAnalysisAgent` task,
`_route_to_workers` returns `"data_analysis"`, a label the conditional-edge
mapping of the `execution` node does not declare. -/
theorem C2_counterexample :
    _route_to_workers pending_data_analysis_state = "data_analysis" ∧
    "data_analysis" ∉ execution_edge_labels := by decide

/-- C2, amended: `_route_to_workers` only ever returns one of the five worker
labels, `"evaluation"` or `"error"`, and `_check_iteration` only `"retry"` or
`"complete"` (both declared); but the execution node's mapping declares only
`"evaluation"` and `"error"`, the worker labels name nodes absent from the
graph, and the router can return such an undeclared label. -/
theorem route_pending_mem {tasks : List PendingTask} {n : String}
    (h : route_pending tasks = some n) : n ∈ worker_labels := by
  match tasks with
  | [] => simp [route_pending] at h
  | t :: rest =>
      rw [route_pending] at h
      cases hag : t.agent with
      | none => rw [hag] at h; exact absurd h (by simp)
      | some a => rw [hag] at h; exact mem_snd_of_dlookup h

theorem C2_router_labels :
    (∀ s : GState, _route_to_workers s ∈ worker_labels ++ ["evaluation", "error"]) ∧
    (∀ s : GState, _check_iteration s ∈ iteration_edge_labels) ∧
    worker_labels.inter graph_nodes = [] ∧
    ¬(∀ s : GState, _route_to_workers s ∈ execution_edge_labels) := by
  refine ⟨?_, ?_, by decide, ?_⟩
  · intro s
    unfold _route_to_workers
    cases hem : s.execution_manager_state with
    | none => decide
    | some es =>
        dsimp only
        cases hrp : route_pending es.pending_tasks with
        | none =>
            dsimp only
            split <;> decide
        | some node_name =>
            dsimp only
            exact List.mem_append_left _ (route_pending_mem hrp)
  · intro s
    unfold _check_iteration
    cases hit : s.iteration_state with
    | none => dsimp only; decide
    | some it =>
        dsimp only
        repeat' split
        all_goals decide
  · intro h
    exact absurd (h pending_data_analysis_state) (by decide)

/-- C5 counterexample: in phase `analyzing` with `clarification_needed` set,
`determine_next_phase` returns `"clarifying"`, outside the declared
four-element phase set. -/
theorem C5_counterexample :
    determine_next_phase clarify_state = "clarifying" ∧
    "clarifying" ∉ (["analyzing", "planning", "executing", "completed"] : List String) := by
  decide

/-- C5, amended: `determine_next_phase` always returns one of the five values
`analyzing`, `planning`, `executing`, `completed` or `clarifying` (the fifth
escapes the declared four-element set); from `analyzing` it moves to
`clarifying` or `planning`, from `planning` to `executing` or backward to
`analyzing` (empty plan), from `executing` to `completed`, `executing` or
backward to `planning` (replan); `clarifying` arises only from
`analyzing`. -/
theorem C5_phase_transitions (s : GState) :
    determine_next_phase s ∈
      (["analyzing", "planning", "executing", "completed", "clarifying"] : List String) ∧
    (s.current_phase = "analyzing" →
      determine_next_phase s ∈ (["clarifying", "planning"] : List String)) ∧
    (s.current_phase = "planning" →
      determine_next_phase s ∈ (["analyzing", "executing"] : List String)) ∧
    (s.current_phase = "executing" →
      determine_next_phase s ∈ (["planning", "completed", "executing"] : List String)) ∧
    (determine_next_phase s = "clarifying" → s.current_phase = "analyzing") := by
  refine ⟨?_, ?_, ?_, ?_, ?_⟩
  · unfold determine_next_phase
    repeat' split
    all_goals decide
  · intro h
    unfold determine_next_phase
    rw [if_pos h]
    repeat' split
    all_goals decide
  · intro h
    unfold determine_next_phase
    rw [if_neg (by rw [h]; decide), if_pos h]
    repeat' split
    all_goals decide
  · intro h
    unfold determine_next_phase
    rw [if_neg (by rw [h]; decide), if_neg (by rw [h]; decide), if_pos h]
    repeat' split
    all_goals decide
  · intro h
    by_cases ha : s.current_phase = "analyzing"
    · exact ha
    · exfalso
      unfold determine_next_phase at h
      rw [if_neg ha] at h
      repeat' split at h
      all_goals exact absurd h (by decide)

theorem C5_witness :
    determine_next_phase clarify_state ∈ (["clarifying", "planning"] : List String) :=
  (C5_phase_transitions clarify_state).2.1 rfl

theorem append_with_limit_drop {α : Type} {limit : Nat} (h : 0 < limit) (c u : List α) :
    append_with_limit limit c u = (c ++ u).drop ((c ++ u).length - limit) := by
  unfold append_with_limit pyLastSlice
  dsimp only
  split
  case isTrue hgt => rw [if_neg (Nat.pos_iff_ne_zero.mp h)]
  case isFalse hle =>
      have h0 : (c ++ u).length - limit = 0 := by omega
      rw [h0, List.drop_zero]

theorem suffix_append_drop {α : Type} (limit : Nat) (a u : List α) :
    ((a.drop (a.length - limit)) ++ u).drop
        (((a.drop (a.length - limit)) ++ u).length - limit)
      = (a ++ u).drop ((a ++ u).length - limit) := by
  have hk : a.length - limit ≤ a.length := Nat.sub_le _ _
  rw [← List.drop_append_of_le_length hk, List.drop_drop, List.length_drop,
    List.length_append]
  congr 1
  omega

theorem foldl_append_with_limit {α : Type} {limit : Nat} (h : 0 < limit)
    (updates : List (List α)) :
    ∀ a : List α,
      List.foldl (append_with_limit limit) (a.drop (a.length - limit)) updates
        = (a ++ updates.flatten).drop ((a ++ updates.flatten).length - limit) := by
  induction updates with
  | nil => intro a; simp
  | cons u us ih =>
      intro a
      rw [List.foldl_cons, append_with_limit_drop h, suffix_append_drop, ih (a ++ u)]
      simp [List.append_assoc]

theorem append_with_limit_zero {α : Type} (c u : List α) :
    append_with_limit 0 c u = c ++ u := by
  unfold append_with_limit pyLastSlice
  simp

theorem foldl_append_with_limit_zero {α : Type} (updates : List (List α)) :
    ∀ a : List α, List.foldl (append_with_limit 0) a updates = a ++ updates.flatten := by
  induction updates with
  | nil => intro a; simp
  | cons u us ih =>
      intro a
      rw [List.foldl_cons, append_with_limit_zero, ih (a ++ u)]
      simp [List.append_assoc]

/-- C6: folding any sequence of appends through the `append_with_limit(N)`
reducer, starting from the empty list, leaves exactly the Python slice
`combined[-N:]` of the full concatenation — the last `N` entries in their
original relative order once more than `N` entries have accumulated (the
slice is a `drop`, so order is preserved and no error is raised); its length
is `min(total, N)` for the positive caps used (50, 100, 200). -/
theorem C6_append_bounded_cap {α : Type} (limit : Nat) (updates : List (List α)) :
    List.foldl (append_with_limit limit) [] updates = pyLastSlice limit updates.flatten ∧
    (0 < limit →
      (List.foldl (append_with_limit limit) [] updates).length
        = min updates.flatten.length limit) := by
  have hmain : List.foldl (append_with_limit limit) [] updates
      = pyLastSlice limit updates.flatten := by
    by_cases h : 0 < limit
    · have h0 : ([] : List α) = ([] : List α).drop (([] : List α).length - limit) := by simp
      rw [h0, foldl_append_with_limit h updates []]
      simp [pyLastSlice, Nat.pos_iff_ne_zero.mp h]
    · have hl : limit = 0 := by omega
      subst hl
      rw [foldl_append_with_limit_zero updates []]
      simp [pyLastSlice]
  refine ⟨hmain, fun h => ?_⟩
  rw [hmain]
  simp [pyLastSlice, Nat.pos_iff_ne_zero.mp h, List.length_drop]
  omega

theorem C6_witness :
    0 < 2 ∧
      (List.foldl (append_with_limit 2) [] [[1], [2], [3]]).length
        = min ([[1], [2], [3]] : List (List Nat)).flatten.length 2 :=
  ⟨by decide, (C6_append_bounded_cap 2 [[1], [2], [3]]).2 (by decide)⟩

theorem dlookup_dset_self {α : Type} (d : List (String × α)) (k : String) (v : α) :
    dlookup (dset d k v) k = some v := by
  induction d with
  | nil => simp [dset, dlookup]
  | cons kv rest ih =>
      obtain ⟨k', v'⟩ := kv
      by_cases h : k' = k
      · simp [dset, dlookup, h]
      · simp [dset, dlookup, h, ih]

theorem dlookup_dset_of_ne {α : Type} {k j : String} (h : j ≠ k)
    (d : List (String × α)) (v : α) :
    dlookup (dset d k v) j = dlookup d j := by
  induction d with
  | nil =>
      simp only [dset, dlookup]
      rw [if_neg (fun he => h he.symm)]
  | cons kv rest ih =>
      obtain ⟨k', v'⟩ := kv
      by_cases hk : k' = k
      · subst hk
        rw [dset, if_pos rfl]
        simp only [dlookup]
        rw [if_neg (fun he => h he.symm), if_neg (fun he => h he.symm)]
      · rw [dset, if_neg hk]
        simp only [dlookup]
        by_cases hj : k' = j
        · rw [if_pos hj, if_pos hj]
        · rw [if_neg hj, if_neg hj]
          exact ih

theorem dlookup_eq_none_of_not_mem {α : Type} {d : List (String × α)} {k : String}
    (h : k ∉ d.map Prod.fst) : dlookup d k = none := by
  induction d with
  | nil => rfl
  | cons kv rest ih =>
      obtain ⟨k', v'⟩ := kv
      simp only [List.map_cons, List.mem_cons] at h
      push_neg at h
      rw [dlookup, if_neg (fun he => h.1 he.symm)]
      exact ih h.2

theorem dlookup_merge_step_self (res : Dict) (k : String) (v : Value) :
    dlookup (merge_step res (k, v)) k =
      (match dlookup res k, v with
        | some (Value.num a), Value.num b => some (Value.num (a + b))
        | _, _ => some v) := by
  unfold merge_step
  cases hl : dlookup res k with
  | none => simp [dlookup_dset_self]
  | some w =>
      cases w with
      | num a =>
          cases v with
          | num b => simp [dlookup_dset_self]
          | str s => simp [dlookup_dset_self]
      | str s => cases v <;> simp [dlookup_dset_self]

theorem dlookup_merge_step_of_ne {k j : String} (h : j ≠ k) (res : Dict) (v : Value) :
    dlookup (merge_step res (k, v)) j = dlookup res j := by
  unfold merge_step
  cases dlookup res k with
  | none => exact dlookup_dset_of_ne h _ _
  | some w =>
      cases w with
      | num a => cases v <;> exact dlookup_dset_of_ne h _ _
      | str s => cases v <;> exact dlookup_dset_of_ne h _ _

theorem merge_dicts_lookup (cur upd : Dict) (hu : (upd.map Prod.fst).Nodup) (k : String) :
    dlookup (merge_dicts cur upd) k =
      (match dlookup upd k with
        | none => dlookup cur k
        | some v =>
            match dlookup cur k, v with
            | some (Value.num a), Value.num b => some (Value.num (a + b))
            | _, _ => some v) := by
  induction upd generalizing cur with
  | nil => rfl
  | cons kv rest ih =>
      obtain ⟨k₀, v₀⟩ := kv
      simp only [List.map_cons, List.nodup_cons] at hu
      obtain ⟨hk₀, hrest⟩ := hu
      have hstep : merge_dicts cur ((k₀, v₀) :: rest)
          = merge_dicts (merge_step cur (k₀, v₀)) rest := rfl
      rw [hstep, ih _ hrest]
      by_cases hk : k = k₀
      · subst hk
        have hnone : dlookup rest k = none :=
          dlookup_eq_none_of_not_mem (by simpa using hk₀)
        rw [hnone, dlookup_merge_step_self]
        rw [dlookup, if_pos rfl]
      · rw [dlookup_merge_step_of_ne hk, dlookup, if_neg (fun he => hk he.symm)]

/-- C7: for dictionaries merged by `merge_dicts`, the result binds every key
of either input; a key bound to numbers in both maps to the sum; on any other
key bound in the update, the update's value wins; keys bound only in the
current dict keep their value. -/
theorem C7_dict_union_numeric_add (cur upd : Dict) (hu : (upd.map Prod.fst).Nodup)
    (k : String) :
    ((dlookup (merge_dicts cur upd) k).isSome
        = ((dlookup cur k).isSome || (dlookup upd k).isSome)) ∧
    (∀ a b : Int, dlookup cur k = some (Value.num a) → dlookup upd k = some (Value.num b) →
        dlookup (merge_dicts cur upd) k = some (Value.num (a + b))) ∧
    (∀ v : Value, dlookup upd k = some v →
        (∀ a b : Int, dlookup cur k = some (Value.num a) → v ≠ Value.num b) →
        dlookup (merge_dicts cur upd) k = some v) ∧
    (dlookup upd k = none → dlookup (merge_dicts cur upd) k = dlookup cur k) := by
  have hmain := merge_dicts_lookup cur upd hu k
  refine ⟨?_, ?_, ?_, ?_⟩
  · rw [hmain]
    cases hup : dlookup upd k with
    | none => simp
    | some v =>
        cases hc : dlookup cur k with
        | none => cases v <;> simp
        | some w => cases w <;> cases v <;> simp
  · intro a b ha hb
    rw [hmain, hb, ha]
  · intro v hv hnn
    rw [hmain, hv]
    cases hc : dlookup cur k with
    | none => cases v <;> rfl
    | some w =>
        cases w with
        | num a =>
            cases v with
            | num b => exact absurd rfl (hnn a b hc)
            | str s => rfl
        | str s => cases v <;> rfl
  · intro h
    rw [hmain, h]

theorem C7_witness :
    dlookup (merge_dicts [("a", Value.num 1), ("b", Value.str "x")]
        [("a", Value.num 2), ("c", Value.num 5)]) "a" = some (Value.num (1 + 2)) :=
  (C7_dict_union_numeric_add [("a", Value.num 1), ("b", Value.str "x")]
      [("a", Value.num 2), ("c", Value.num 5)] (by decide) "a").2.1 1 2
    (by decide) (by decide)

attribute [ext] GState

theorem getD_getD {α : Type} (o : Option α) (a : α) : o.getD (o.getD a) = o.getD a := by
  cases o <;> rfl

theorem append_with_limit_nil_idem {α : Type} (n : Nat) (x : List α) :
    append_with_limit n (append_with_limit n x []) [] = append_with_limit n x [] := by
  by_cases h : 0 < n
  · rw [append_with_limit_drop h, append_with_limit_drop h]
    simp only [List.append_nil]
    rw [List.length_drop]
    have h0 : x.length - (x.length - n) - n = 0 := by omega
    rw [h0, List.drop_zero]
  · have h0 : n = 0 := by omega
    subst h0
    simp [append_with_limit_zero]

/-- An update that carries a message-id-tagged history entry (a would-be
de-duplication key) together with a Sum increment. -/
def dedup_update : GUpdate :=
  { iteration_count := some 1
    conversation_history := some [[("id", Value.str "msg-1")]] }

/-- C1 counterexample: the merge has no de-duplication; applying the same
id-tagged update twice to a fresh state doubles the Sum field and repeats the
Append entry, so the twice-applied state differs from the once-applied
one. -/
theorem C1_counterexample :
    apply_update (apply_update sample_state dedup_update) dedup_update ≠
      apply_update sample_state dedup_update := by decide

/-- C1, amended: the declared reducers carry no de-duplication key and cannot
detect a repeat, so the claimed idempotence fails in general: an update whose
Sum channel carries `n` leaves that field at its old value plus `2·n` after
two applications (for `iteration_count`, `total_tokens_used` and
`db_queries_executed` alike), and the counterexample's id-tagged update also
duplicates its `conversation_history` entry.  Applying the same update twice
does equal applying it once whenever the update is neutral on every
accumulating channel — Sum increments zero or absent, Append/error/warning
lists empty or absent, `api_calls_made` and `agent_states` empty or absent —
while Replace-policy fields may be arbitrary.  (This neutrality condition is
sufficient for idempotence, not necessary: `agent_states`, merged by
`dict.update`, is idempotent for any update.) -/
theorem C1_double_count_and_neutral_idempotence (s : GState) (u : GUpdate) :
    (∀ n : Int, u.iteration_count = some n →
        (apply_update (apply_update s u) u).iteration_count
          = s.iteration_count + n + n) ∧
    (∀ n : Int, u.total_tokens_used = some n →
        (apply_update (apply_update s u) u).total_tokens_used
          = s.total_tokens_used + n + n) ∧
    (∀ n : Int, u.db_queries_executed = some n →
        (apply_update (apply_update s u) u).db_queries_executed
          = s.db_queries_executed + n + n) ∧
    ((u.iteration_count = none ∨ u.iteration_count = some 0) →
      (u.total_tokens_used = none ∨ u.total_tokens_used = some 0) →
      (u.db_queries_executed = none ∨ u.db_queries_executed = some 0) →
      (u.conversation_history = none ∨ u.conversation_history = some []) →
      (u.execution_steps = none ∨ u.execution_steps = some []) →
      (u.audit_trail = none ∨ u.audit_trail = some []) →
      (u.errors = none ∨ u.errors = some []) →
      (u.warnings = none ∨ u.warnings = some []) →
      (u.api_calls_made = none ∨ u.api_calls_made = some []) →
      (u.agent_states = none ∨ u.agent_states = some []) →
      apply_update (apply_update s u) u = apply_update s u) := by
  refine ⟨?_, ?_, ?_, ?_⟩
  · intro n h
    simp only [apply_update, h]
  · intro n h
    simp only [apply_update, h]
  · intro n h
    simp only [apply_update, h]
  · intro h1 h2 h3 h4 h5 h6 h7 h8 h9 h10
    apply GState.ext <;> simp only [apply_update]
    all_goals try rw [getD_getD]
    · rcases h4 with h | h <;> rw [h]
      dsimp only
      exact append_with_limit_nil_idem 50 s.conversation_history
    · rcases h1 with h | h <;> rw [h]
      dsimp only
      simp
    · rcases h5 with h | h <;> rw [h]
      dsimp only
      exact append_with_limit_nil_idem 100 s.execution_steps
    · rcases h2 with h | h <;> rw [h]
      dsimp only
      simp
    · rcases h9 with h | h <;> rw [h]
      rfl
    · rcases h3 with h | h <;> rw [h]
      dsimp only
      simp
    · rcases h10 with h | h <;> rw [h]
      rfl
    · rcases h7 with h | h <;> rw [h]
      dsimp only
      simp
    · rcases h8 with h | h <;> rw [h]
      dsimp only
      simp
    · rcases h6 with h | h <;> rw [h]
      dsimp only
      exact append_with_limit_nil_idem 200 s.audit_trail

theorem C1_witness :
    (apply_update (apply_update sample_state dedup_update) dedup_update).iteration_count
        = sample_state.iteration_count + 1 + 1 ∧
    apply_update (apply_update sample_state {}) {} = apply_update sample_state {} :=
  ⟨(C1_double_count_and_neutral_idempotence sample_state dedup_update).1 1 rfl,
   (C1_double_count_and_neutral_idempotence sample_state {}).2.2.2
     (Or.inl rfl) (Or.inl rfl) (Or.inl rfl) (Or.inl rfl) (Or.inl rfl)
     (Or.inl rfl) (Or.inl rfl) (Or.inl rfl) (Or.inl rfl) (Or.inl rfl)⟩

/-- A parallel-marked step with no dependencies. -/
def c4stepA : PlanStep :=
  { agent_name := "DataAnalysisAgent", parallel := true, dependencies := [] }

/-- A parallel-marked step depending on `DataAnalysisAgent`. -/
def c4stepB : PlanStep :=
  { agent_name := "DocumentGenerationAgent", parallel := true,
    dependencies := ["DataAnalysisAgent"] }

/-- A two-step plan whose second step depends on the first. -/
def c4plan : List PlanStep := [c4stepA, c4stepB]

/-- C4 counterexample: with nothing executed, the next step is `c4stepA`
(unsatisfied-dependency set empty), yet `_get_parallel_agents` fans out
`c4stepB`, whose unsatisfied-dependency set is `["DataAnalysisAgent"]` — not
identical to the current step's. -/
theorem C4_counterexample :
    _get_next_step c4plan [] = some c4stepA ∧
    _get_parallel_agents c4plan c4stepA [] = [c4stepB] ∧
    unsatisfied_deps c4stepB [] ≠ unsatisfied_deps c4stepA [] := by decide

/-- C4, amended: the executor fans out exactly the plan steps other than the
current one that are marked parallel and not yet executed — it never compares
dependency sets — and it selects them, and builds their `Send` objects, in
plan declaration order (the fan-out list is a sublist of the plan). -/
theorem C4_parallel_fanout (plan : List PlanStep) (current : PlanStep)
    (executed : List String) :
    _get_parallel_agents plan current executed
        = plan.filter (fun step =>
            decide (step ≠ current ∧ step.parallel = true ∧ step.agent_name ∉ executed)) ∧
    (_get_parallel_agents plan current executed).Sublist plan ∧
    (∀ step ∈ _get_parallel_agents plan current executed,
        step ≠ current ∧ step.parallel = true ∧ step.agent_name ∉ executed) ∧
    (∀ pas : List PlanStep, pas ≠ [] →
        _create_sends_names current.agent_name pas
          = pas.map (fun a => a.agent_name ++ "_agent")) := by
  have hfilter : ∀ p : List PlanStep,
      _get_parallel_agents_loop current executed p
        = p.filter (fun step =>
            decide (step ≠ current ∧ step.parallel = true ∧ step.agent_name ∉ executed)) := by
    intro p
    induction p with
    | nil => rfl
    | cons step rest ih =>
        by_cases hc : step ≠ current ∧ step.parallel = true ∧ step.agent_name ∉ executed
        · rw [_get_parallel_agents_loop, if_pos hc, ih, List.filter_cons,
            if_pos (decide_eq_true hc)]
        · rw [_get_parallel_agents_loop, if_neg hc, ih, List.filter_cons,
            if_neg (by simp [hc])]
  refine ⟨hfilter plan, ?_, ?_, ?_⟩
  · rw [_get_parallel_agents, hfilter plan]
    exact List.filter_sublist plan
  · intro step hmem
    rw [_get_parallel_agents, hfilter plan] at hmem
    exact of_decide_eq_true (List.mem_filter.mp hmem).2
  · intro pas hne
    cases pas with
    | nil => exact absurd rfl hne
    | cons a rest => rfl

theorem C4_witness :
    c4stepB ≠ c4stepA ∧ c4stepB.parallel = true ∧
      c4stepB.agent_name ∉ ([] : List String) :=
  (C4_parallel_fanout c4plan c4stepA []).2.2.1 c4stepB (by decide)

theorem check_iteration_complete_of_cap (t : GState)
    (h : t.max_iterations.getD 3 ≤ t.iteration_count) :
    _check_iteration t = "complete" := by
  unfold _check_iteration
  cases hit : t.iteration_state with
  | none => rfl
  | some it =>
      dsimp only
      rw [if_pos h]

theorem check_iteration_retry_lt {t : GState} (h : _check_iteration t = "retry") :
    t.iteration_count < t.max_iterations.getD 3 := by
  by_contra hc
  push_neg at hc
  rw [check_iteration_complete_of_cap t hc] at h
  exact absurd h (by decide)

theorem loop_step_iteration_count (s : GState) :
    (loop_step s).iteration_count = s.iteration_count ∨
    ((loop_step s).iteration_count = s.iteration_count + 1 ∧
      s.iteration_count < s.max_iterations.getD 3) := by
  unfold loop_step
  split
  case isTrue h => exact Or.inr ⟨rfl, check_iteration_retry_lt h⟩
  case isFalse h => exact Or.inl rfl

theorem loop_step_max_iterations (s : GState) :
    (loop_step s).max_iterations = s.max_iterations := by
  unfold loop_step
  split <;> rfl

theorem loop_iter_succ_out (n : Nat) (s : GState) :
    loop_iter (n + 1) s = loop_step (loop_iter n s) := by
  induction n generalizing s with
  | zero => rfl
  | succ n ih =>
      rw [loop_iter, ih (loop_step s), loop_iter]

theorem loop_iter_max_iterations (n : Nat) (s : GState) :
    (loop_iter n s).max_iterations = s.max_iterations := by
  induction n generalizing s with
  | zero => rfl
  | succ n ih => rw [loop_iter, ih, loop_step_max_iterations]

theorem loop_step_mono (s : GState) :
    s.iteration_count ≤ (loop_step s).iteration_count := by
  rcases loop_step_iteration_count s with h | ⟨h, _⟩ <;> omega

theorem loop_step_bound (s : GState)
    (h : s.iteration_count ≤ s.max_iterations.getD 3) :
    (loop_step s).iteration_count ≤ (loop_step s).max_iterations.getD 3 := by
  rw [loop_step_max_iterations]
  rcases loop_step_iteration_count s with h1 | ⟨h1, h2⟩ <;> omega

/-- C3: around the modelled evaluate→iterate loop (the loop-back controller,
absent from `src`, is modelled from the spec as contributing exactly
`iteration_count = 1`, merged by the declared `operator.add` reducer), the
iteration counter never decreases, and — starting at or below the cap — it
never exceeds `max_iterations` (`state.get` default `3`), because
`_check_iteration` answers `"complete"` whenever the counter has reached the
cap, so the loop-back edge cannot fire again. -/
theorem C3_monotone_bounded_iteration (s : GState) (n : Nat)
    (h0 : s.iteration_count ≤ s.max_iterations.getD 3) :
    (loop_iter n s).iteration_count ≤ (loop_iter (n + 1) s).iteration_count ∧
    (loop_iter n s).iteration_count ≤ s.max_iterations.getD 3 ∧
    (∀ t : GState, t.max_iterations.getD 3 ≤ t.iteration_count →
        _check_iteration t = "complete") := by
  have hinv : ∀ m : Nat,
      (loop_iter m s).iteration_count ≤ (loop_iter m s).max_iterations.getD 3 := by
    intro m
    induction m with
    | zero => exact h0
    | succ m ih =>
        rw [loop_iter_succ_out]
        exact loop_step_bound _ ih
  refine ⟨?_, ?_, fun t ht => check_iteration_complete_of_cap t ht⟩
  · rw [loop_iter_succ_out]
    exact loop_step_mono _
  · have h := hinv n
    rwa [loop_iter_max_iterations] at h

theorem C3_witness :
    (loop_iter 5 sample_state).iteration_count ≤ sample_state.max_iterations.getD 3 :=
  (C3_monotone_bounded_iteration sample_state 5 (by decide)).2.1

theorem build_store_ids_aux (blobs : List GState) :
    ∀ store : List Checkpoint,
      ((blobs.foldl save_checkpoint store).map Checkpoint.id)
        = store.map Checkpoint.id ++ List.range' store.length blobs.length := by
  induction blobs with
  | nil => intro store; simp
  | cons b rest ih =>
      intro store
      rw [List.foldl_cons, ih]
      simp [save_checkpoint, List.range'_succ, List.append_assoc]

/-- C8: in the spec-modelled checkpoint store, the ids of the checkpoints
saved for one session are exactly `0, 1, 2, …` in save order — strictly
increasing with time (so the reverse-chronological `list_checkpoints` output
is strictly decreasing), a later save always receives a strictly larger id
than every existing checkpoint, and resuming loads the checkpoint with the
largest id, never an older one. -/
theorem C8_checkpoint_ordering (blobs : List GState) :
    ((build_store blobs).map Checkpoint.id) = List.range blobs.length ∧
    List.Chain' (· < ·) ((build_store blobs).map Checkpoint.id) ∧
    List.Chain' (· > ·) (list_checkpoints (build_store blobs)) ∧
    (∀ blob : GState,
        load_latest (save_checkpoint (build_store blobs) blob)
          = some ⟨blobs.length, blob⟩) ∧
    (∀ c ∈ build_store blobs, c.id < blobs.length) := by
  have hids : ((build_store blobs).map Checkpoint.id) = List.range blobs.length := by
    have h := build_store_ids_aux blobs []
    simpa [build_store, List.range_eq_range'] using h
  have hchain : List.Chain' (· < ·) ((build_store blobs).map Checkpoint.id) := by
    rw [hids]
    exact (List.pairwise_lt_range blobs.length).chain'
  have hlen : (build_store blobs).length = blobs.length := by
    have h := congrArg List.length hids
    simpa using h
  refine ⟨hids, hchain, ?_, ?_, ?_⟩
  · unfold list_checkpoints
    exact List.chain'_reverse.mpr hchain
  · intro blob
    unfold load_latest save_checkpoint
    rw [List.getLast?_concat, hlen]
  · intro c hc
    have hm : c.id ∈ (build_store blobs).map Checkpoint.id :=
      List.mem_map_of_mem Checkpoint.id hc
    rw [hids] at hm
    exact List.mem_range.mp hm

theorem C8_witness :
    (⟨0, sample_state⟩ : Checkpoint).id
      < ([sample_state, sample_state] : List GState).length :=
  (C8_checkpoint_ordering [sample_state, sample_state]).2.2.2.2
    ⟨0, sample_state⟩ (by decide)

end Narutalk
